import Mathlib

/-!
Shallow embedding of the SDP parser/serializer of `src/webrtcredux/sdp.rs`
(gst-webrtcredux). Strings are modelled as lists of characters; Rust's
`split`, `join`, `replace`, `chunks` and integer parsing are reproduced
faithfully. Fallible Rust code is modelled in an `Except` monad whose error
type distinguishes returned parse errors from panics (out-of-range indexing,
`unwrap` on `None`, `unreachable!`).
-/

deriving instance DecidableEq for Except

/-- Character-list model of Rust `String` / `&str`. -/
abbrev Str := List Char

/-- The character list underlying a Lean string literal. -/
def strL (s : String) : Str := s.data

/-- Rust `IntErrorKind` (the cases reachable from unsigned parsing). -/
inductive IntErrorKind where
  | Empty
  | InvalidDigit
  | PosOverflow
deriving DecidableEq, Repr

/-- `ParseError` from the source: unknown key with its value, unknown token,
or a failed numeric conversion. -/
inductive ParseError where
  | UnknownKey : Char → Str → ParseError
  | UnknownToken : Str → ParseError
  | TypeParseFailed : IntErrorKind → ParseError
deriving DecidableEq, Repr

/-- How a Rust computation can fail: either by returning a `ParseError`,
or by panicking (index out of range, `unwrap` on `None`, `unreachable!`). -/
inductive Failure where
  | err : ParseError → Failure
  | panic : Failure
deriving DecidableEq, Repr

/-- Result monad for the embedded Rust code. -/
abbrev Res (α : Type) := Except Failure α

/-- Return a `ParseError` (Rust `Err(...)` / the `?` operator). -/
def perr {α : Type} (e : ParseError) : Res α := Except.error (Failure.err e)

/-- Rust slice indexing `l[i]`: panics when out of range. -/
def idx {α : Type} (l : List α) (i : Nat) : Res α :=
  match l.get? i with
  | some a => Except.ok a
  | none => Except.error Failure.panic

/-- Lift a numeric-conversion failure into `ParseError::TypeParseFailed`
(the `From<ParseIntError> for ParseError` impl). -/
def liftInt {α : Type} : Except IntErrorKind α → Res α
  | Except.ok a => Except.ok a
  | Except.error k => perr (ParseError.TypeParseFailed k)

/-- Accumulator-passing core of Rust `str::split(char)`. -/
def splitCharAux (c : Char) : Str → Str → List Str
  | [], acc => [acc.reverse]
  | x :: xs, acc =>
    if x = c then acc.reverse :: splitCharAux c xs []
    else splitCharAux c xs (x :: acc)

/-- Rust `str::split(char)`: always yields at least one (possibly empty)
piece; empty pieces between adjacent separators are kept. -/
def splitChar (c : Char) (s : Str) : List Str := splitCharAux c s []

/-- Rust `[String]::join(sep)` / `format!` juxtaposition of pieces. -/
def joinSep (sep : Str) : List Str → Str
  | [] => []
  | [x] => x
  | x :: y :: t => x ++ sep ++ joinSep sep (y :: t)

/-- Rust `str::replace("\r\n", "\n")` (left-to-right, non-overlapping). -/
def replaceCRLF : Str → Str
  | [] => []
  | '\r' :: '\n' :: rest => '\n' :: replaceCRLF rest
  | x :: rest => x :: replaceCRLF rest

/-- Rust `slice::chunks(2)`. -/
def chunksTwo {α : Type} : List α → List (List α)
  | [] => []
  | [a] => [[a]]
  | a :: b :: rest => [a, b] :: chunksTwo rest

/-- Digit-accumulating core of Rust unsigned integer parsing, with the
type's maximum checked at every step (overflow reports `PosOverflow`). -/
def parseDigitsAux (max : Nat) : Str → Nat → Except IntErrorKind Nat
  | [], acc => Except.ok acc
  | ch :: rest, acc =>
    if ch.isDigit then
      let acc' := acc * 10 + (ch.toNat - 48)
      if acc' > max then Except.error IntErrorKind.PosOverflow
      else parseDigitsAux max rest acc'
    else Except.error IntErrorKind.InvalidDigit

/-- Rust `str::parse::<uN>()`: optional leading `+`, then one or more ASCII
digits; empty input reports `Empty`, a non-digit reports `InvalidDigit`,
exceeding the type's maximum reports `PosOverflow`. -/
def parseUnsigned (max : Nat) (s : Str) : Except IntErrorKind Nat :=
  match s with
  | [] => Except.error IntErrorKind.Empty
  | '+' :: rest =>
    if rest = [] then Except.error IntErrorKind.InvalidDigit
    else parseDigitsAux max rest 0
  | _ => parseDigitsAux max s 0

/-- `usize::MAX` on the 64-bit targets the crate builds for. -/
def UMAX : Nat := 2 ^ 64 - 1

/-- `u16::MAX` (port numbers). -/
def U16MAX : Nat := 65535

/-- `u8::MAX` (protocol version). -/
def U8MAX : Nat := 255

/-- Decimal rendering of an unsigned integer (Rust `format!("{}")`). -/
def natChars (n : Nat) : Str := Nat.toDigits 10 n

/-- `NetworkType` (sdp.rs): only the Internet (`IN`) network type. -/
inductive NetworkType where
  | Internet
deriving DecidableEq, Repr

/-- `NetworkType::from_str`. -/
def NetworkType.from_str (s : Str) : Res NetworkType :=
  if s = strL "IN" then Except.ok NetworkType.Internet
  else perr (ParseError.UnknownToken s)

/-- `NetworkType::to_string`. -/
def NetworkType.to_string : NetworkType → Str
  | NetworkType.Internet => strL "IN"

/-- `AddressType` (sdp.rs). -/
inductive AddressType where
  | IPv4
  | IPv6
deriving DecidableEq, Repr

/-- `AddressType::from_str`. -/
def AddressType.from_str (s : Str) : Res AddressType :=
  if s = strL "IP4" then Except.ok AddressType.IPv4
  else if s = strL "IP6" then Except.ok AddressType.IPv6
  else perr (ParseError.UnknownToken s)

/-- `AddressType::to_string`. -/
def AddressType.to_string : AddressType → Str
  | AddressType.IPv4 => strL "IP4"
  | AddressType.IPv6 => strL "IP6"

/-- `BandwidthType` (sdp.rs). -/
inductive BandwidthType where
  | ConferenceTotal
  | ApplicationSpecific
deriving DecidableEq, Repr

/-- `BandwidthType::from_str`. -/
def BandwidthType.from_str (s : Str) : Res BandwidthType :=
  if s = strL "CT" then Except.ok BandwidthType.ConferenceTotal
  else if s = strL "AS" then Except.ok BandwidthType.ApplicationSpecific
  else perr (ParseError.UnknownToken s)

/-- `BandwidthType::to_string`. -/
def BandwidthType.to_string : BandwidthType → Str
  | BandwidthType.ConferenceTotal => strL "CT"
  | BandwidthType.ApplicationSpecific => strL "AS"

/-- `MediaType` (sdp.rs). -/
inductive MediaType where
  | Audio
  | Video
  | Text
  | Application
deriving DecidableEq, Repr

/-- `MediaType::from_str`. -/
def MediaType.from_str (s : Str) : Res MediaType :=
  if s = strL "audio" then Except.ok MediaType.Audio
  else if s = strL "video" then Except.ok MediaType.Video
  else if s = strL "text" then Except.ok MediaType.Text
  else if s = strL "application" then Except.ok MediaType.Application
  else perr (ParseError.UnknownToken s)

/-- `MediaType::to_string`. -/
def MediaType.to_string : MediaType → Str
  | MediaType.Audio => strL "audio"
  | MediaType.Video => strL "video"
  | MediaType.Text => strL "text"
  | MediaType.Application => strL "application"

/-- `EncryptionKeyMethod` (sdp.rs). -/
inductive EncryptionKeyMethod where
  | Clear : Str → EncryptionKeyMethod
  | Base64 : Str → EncryptionKeyMethod
  | Uri : Str → EncryptionKeyMethod
  | Prompt
deriving DecidableEq, Repr

/-- `EncryptionKeyMethod::from_str`: literal `prompt`, else split on `:`,
the first piece selects the method and the remaining pieces rejoined with
`:` are the key. -/
def EncryptionKeyMethod.from_str (s : Str) : Res EncryptionKeyMethod :=
  if s = strL "prompt" then Except.ok EncryptionKeyMethod.Prompt
  else
    let split := splitChar ':' s
    let key := joinSep (strL ":") (split.drop 1)
    if split.headD [] = strL "clear" then Except.ok (EncryptionKeyMethod.Clear key)
    else if split.headD [] = strL "base64" then Except.ok (EncryptionKeyMethod.Base64 key)
    else if split.headD [] = strL "uri" then Except.ok (EncryptionKeyMethod.Uri key)
    else perr (ParseError.UnknownToken s)

/-- `EncryptionKeyMethod::to_string`. -/
def EncryptionKeyMethod.to_string : EncryptionKeyMethod → Str
  | EncryptionKeyMethod.Clear key => strL "clear:" ++ key
  | EncryptionKeyMethod.Base64 key => strL "base64:" ++ key
  | EncryptionKeyMethod.Uri key => strL "uri:" ++ key
  | EncryptionKeyMethod.Prompt => strL "prompt"

/-- `TimeZoneAdjustment` (sdp.rs). -/
structure TimeZoneAdjustment where
  time : Nat
  offset : Str
deriving DecidableEq, Repr

/-- `MediaProp` (sdp.rs): a record nested inside a media section. -/
inductive MediaProp where
  | Title : Str → MediaProp
  | Connection : NetworkType → AddressType → Str → Option Nat → Option Nat →
      Option Str → MediaProp
  | Bandwidth : BandwidthType → Nat → MediaProp
  | EncryptionKeys : EncryptionKeyMethod → MediaProp
  | Attribute : Str → Option Str → MediaProp
deriving DecidableEq, Repr

/-- `SdpProp` (sdp.rs): a top-level record. Field order matches the source:
`Connection` is net type, address type, address, ttl, num_addresses, suffix;
`Media` is type, ports, protocol, format, props. -/
inductive SdpProp where
  | Version : Nat → SdpProp
  | Origin : Str → Str → Nat → NetworkType → AddressType → Str → SdpProp
  | SessionName : Str → SdpProp
  | SessionInformation : Str → SdpProp
  | Uri : Str → SdpProp
  | Email : Str → SdpProp
  | Phone : Str → SdpProp
  | Connection : NetworkType → AddressType → Str → Option Nat → Option Nat →
      Option Str → SdpProp
  | Bandwidth : BandwidthType → Nat → SdpProp
  | Timing : Nat → Nat → SdpProp
  | RepeatTimes : Str → Str → List Str → SdpProp
  | TimeZone : List TimeZoneAdjustment → SdpProp
  | EncryptionKeys : EncryptionKeyMethod → SdpProp
  | Attribute : Str → Option Str → SdpProp
  | Media : MediaType → List Nat → Str → Str → List MediaProp → SdpProp
deriving DecidableEq, Repr

/-- `SDP` (sdp.rs): the document, an ordered list of top-level records. -/
structure SDP where
  props : List SdpProp
deriving DecidableEq, Repr

/-- `content_from_line` (sdp.rs): split the line on `=`; fewer than two
pieces is an `UnknownToken` error carrying the whole line; the key is the
first character of the first piece (`unwrap` panics when that piece is
empty) and the value is the remaining pieces rejoined with `=`. -/
def content_from_line (line : Str) : Res (Char × Str) :=
  let split := splitChar '=' line
  if split.length < 2 then perr (ParseError.UnknownToken line)
  else
    match split.headD [] with
    | [] => Except.error Failure.panic
    | c :: _ => Except.ok (c, joinSep (strL "=") (split.drop 1))

/-- `get_options_from_address_split` (sdp.rs): one `/`-part is the bare
address, two add a TTL, three add an address count, and every other arity
hits the `unreachable!` branch (a panic). -/
def get_options_from_address_split (address_split : List Str) :
    Res (Str × Option Nat × Option Nat) :=
  match address_split with
  | [a] => Except.ok (a, none, none)
  | [a, b] => do
    let ttl ← liftInt (parseUnsigned UMAX b)
    Except.ok (a, some ttl, none)
  | [a, b, c] => do
    let ttl ← liftInt (parseUnsigned UMAX b)
    let num ← liftInt (parseUnsigned UMAX c)
    Except.ok (a, some ttl, some num)
  | _ => Except.error Failure.panic

/-- `build_connection_lines` (sdp.rs). -/
def build_connection_lines (net_type : NetworkType) (address_type : AddressType)
    (suffix : Option Str) (address : Str) : Str :=
  match suffix with
  | some suf =>
    strL "c=" ++ net_type.to_string ++ strL " " ++ address_type.to_string ++
      strL " " ++ address ++ strL " " ++ suf
  | none =>
    strL "c=" ++ net_type.to_string ++ strL " " ++ address_type.to_string ++
      strL " " ++ address

/-- `MediaProp::from_str` (sdp.rs): parse one nested media-section line,
with the source's evaluation order (indexing panics included). -/
def MediaProp.from_str (s : Str) : Res MediaProp := do
  let kv ← content_from_line s
  let key := kv.1
  let value := kv.2
  let tokens := splitChar ' ' value
  match key with
  | 'i' => Except.ok (MediaProp.Title value)
  | 'c' => do
    let t2 ← idx tokens 2
    let address_split := splitChar '/' t2
    let opts ← get_options_from_address_split address_split
    let suffix := if tokens.length > 3 then some (joinSep (strL " ") (tokens.drop 3)) else none
    let t0 ← idx tokens 0
    let net_type ← NetworkType.from_str t0
    let t1 ← idx tokens 1
    let address_type ← AddressType.from_str t1
    Except.ok (MediaProp.Connection net_type address_type opts.1 opts.2.1 opts.2.2 suffix)
  | 'b' => do
    let tokens := splitChar ':' value
    let t0 ← idx tokens 0
    let btype ← BandwidthType.from_str t0
    let t1 ← idx tokens 1
    let bandwidth ← liftInt (parseUnsigned UMAX t1)
    Except.ok (MediaProp.Bandwidth btype bandwidth)
  | 'k' => do
    let method ← EncryptionKeyMethod.from_str value
    Except.ok (MediaProp.EncryptionKeys method)
  | 'a' => do
    let tokens := splitChar ':' value
    if tokens.length > 1 then do
      let t0 ← idx tokens 0
      Except.ok (MediaProp.Attribute t0 (some (joinSep (strL ":") (tokens.drop 1))))
    else
      Except.ok (MediaProp.Attribute value none)
  | _ => perr (ParseError.UnknownToken s)

/-- `MediaProp::to_string` (sdp.rs): total — in particular the media-level
`Connection` arm appends `/ttl` only when a TTL is present (the source
comment says TTL is required for IPv4 but deliberately ignores that). -/
def MediaProp.to_string : MediaProp → Str
  | MediaProp.Title title => strL "i=" ++ title
  | MediaProp.Connection net_type address_type address ttl num_addresses suffix =>
    let address1 := match ttl with
      | some t => address ++ strL "/" ++ natChars t
      | none => address
    let address2 := match num_addresses with
      | some n => address1 ++ strL "/" ++ natChars n
      | none => address1
    build_connection_lines net_type address_type suffix address2
  | MediaProp.Bandwidth btype bandwidth =>
    strL "b=" ++ btype.to_string ++ strL ":" ++ natChars bandwidth
  | MediaProp.EncryptionKeys method => strL "k=" ++ method.to_string
  | MediaProp.Attribute key (some value) => strL "a=" ++ key ++ strL ":" ++ value
  | MediaProp.Attribute key none => strL "a=" ++ key

/-- `SdpProp::from_str` (sdp.rs): parse one top-level record (a media record
receives its whole multi-line block), with the source's evaluation order. -/
def SdpProp.from_str (s : Str) : Res SdpProp := do
  let kv ← content_from_line s
  let key := kv.1
  let value := kv.2
  let tokens := splitChar ' ' value
  match key with
  | 'v' => do
    let v ← liftInt (parseUnsigned U8MAX value)
    Except.ok (SdpProp.Version v)
  | 'o' => do
    let t0 ← idx tokens 0
    let t1 ← idx tokens 1
    let t2 ← idx tokens 2
    let session_version ← liftInt (parseUnsigned UMAX t2)
    let t3 ← idx tokens 3
    let net_type ← NetworkType.from_str t3
    let t4 ← idx tokens 4
    let address_type ← AddressType.from_str t4
    let t5 ← idx tokens 5
    Except.ok (SdpProp.Origin t0 t1 session_version net_type address_type t5)
  | 's' => Except.ok (SdpProp.SessionName value)
  | 'i' => Except.ok (SdpProp.SessionInformation value)
  | 'u' => Except.ok (SdpProp.Uri value)
  | 'e' => Except.ok (SdpProp.Email value)
  | 'p' => Except.ok (SdpProp.Phone value)
  | 'c' => do
    let t2 ← idx tokens 2
    let address_split := splitChar '/' t2
    let opts ← get_options_from_address_split address_split
    let suffix := if tokens.length > 3 then some (joinSep (strL " ") (tokens.drop 3)) else none
    let t0 ← idx tokens 0
    let net_type ← NetworkType.from_str t0
    let t1 ← idx tokens 1
    let address_type ← AddressType.from_str t1
    Except.ok (SdpProp.Connection net_type address_type opts.1 opts.2.1 opts.2.2 suffix)
  | 'b' => do
    let tokens := splitChar ':' value
    let t0 ← idx tokens 0
    let btype ← BandwidthType.from_str t0
    let t1 ← idx tokens 1
    let bandwidth ← liftInt (parseUnsigned UMAX t1)
    Except.ok (SdpProp.Bandwidth btype bandwidth)
  | 't' => do
    let t0 ← idx tokens 0
    let start ← liftInt (parseUnsigned UMAX t0)
    let t1 ← idx tokens 1
    let stop ← liftInt (parseUnsigned UMAX t1)
    Except.ok (SdpProp.Timing start stop)
  | 'r' => do
    let t0 ← idx tokens 0
    let t1 ← idx tokens 1
    Except.ok (SdpProp.RepeatTimes t0 t1 (tokens.drop 2))
  | 'z' => do
    let adjustments ← (chunksTwo tokens).mapM (fun g => do
      let g0 ← idx g 0
      let time ← liftInt (parseUnsigned UMAX g0)
      let g1 ← idx g 1
      Except.ok (TimeZoneAdjustment.mk time g1))
    Except.ok (SdpProp.TimeZone adjustments)
  | 'k' => do
    let method ← EncryptionKeyMethod.from_str value
    Except.ok (SdpProp.EncryptionKeys method)
  | 'a' => do
    let tokens := splitChar ':' value
    if tokens.length > 1 then do
      let t0 ← idx tokens 0
      Except.ok (SdpProp.Attribute t0 (some (joinSep (strL ":") (tokens.drop 1))))
    else
      Except.ok (SdpProp.Attribute value none)
  | 'm' => do
    let lines := splitChar '\n' value
    let l0 ← idx lines 0
    let tokens := splitChar ' ' l0
    let t0 ← idx tokens 0
    let mtype ← MediaType.from_str t0
    let t1 ← idx tokens 1
    let ports ← (splitChar '/' t1).mapM (fun p => liftInt (parseUnsigned U16MAX p))
    let t2 ← idx tokens 2
    let props ← (lines.drop 1).mapM MediaProp.from_str
    Except.ok (SdpProp.Media mtype ports t2 (joinSep (strL " ") (tokens.drop 3)) props)
  | _ => perr (ParseError.UnknownKey key value)

/-- `SdpProp::to_string` (sdp.rs). The top-level `Connection` arm calls
`ttl.unwrap()` whenever the address type is IPv4 or a TTL is present, so it
panics on an IPv4 connection whose TTL is `None`; every other arm is total.
A `Media` record is the header followed, when it has nested records, by a
CRLF and its nested records joined with CRLF. -/
def SdpProp.to_string : SdpProp → Res Str
  | SdpProp.Version v => Except.ok (strL "v=" ++ natChars v)
  | SdpProp.Origin username session_id session_version net_type address_type address =>
    Except.ok (strL "o=" ++ username ++ strL " " ++ session_id ++ strL " " ++
      natChars session_version ++ strL " " ++ net_type.to_string ++ strL " " ++
      address_type.to_string ++ strL " " ++ address)
  | SdpProp.SessionName name => Except.ok (strL "s=" ++ name)
  | SdpProp.SessionInformation info => Except.ok (strL "i=" ++ info)
  | SdpProp.Uri uri => Except.ok (strL "u=" ++ uri)
  | SdpProp.Email email => Except.ok (strL "e=" ++ email)
  | SdpProp.Phone phone => Except.ok (strL "p=" ++ phone)
  | SdpProp.Connection net_type address_type address ttl num_addresses suffix => do
    let address1 ←
      if address_type = AddressType.IPv4 || ttl.isSome then
        match ttl with
        | some t => Except.ok (address ++ strL "/" ++ natChars t)
        | none => Except.error Failure.panic
      else Except.ok address
    let address2 := match num_addresses with
      | some n => address1 ++ strL "/" ++ natChars n
      | none => address1
    Except.ok (build_connection_lines net_type address_type suffix address2)
  | SdpProp.Bandwidth btype bandwidth =>
    Except.ok (strL "b=" ++ btype.to_string ++ strL ":" ++ natChars bandwidth)
  | SdpProp.Timing start stop =>
    Except.ok (strL "t=" ++ natChars start ++ strL " " ++ natChars stop)
  | SdpProp.RepeatTimes interval active_duration start_offsets =>
    Except.ok (strL "r=" ++ interval ++ strL " " ++ active_duration ++ strL " " ++
      joinSep (strL " ") start_offsets)
  | SdpProp.TimeZone adjustments =>
    Except.ok (strL "z=" ++ joinSep (strL " ")
      (adjustments.map (fun adj => natChars adj.time ++ strL " " ++ adj.offset)))
  | SdpProp.EncryptionKeys method => Except.ok (strL "k=" ++ method.to_string)
  | SdpProp.Attribute key (some value) =>
    Except.ok (strL "a=" ++ key ++ strL ":" ++ value)
  | SdpProp.Attribute key none => Except.ok (strL "a=" ++ key)
  | SdpProp.Media mtype ports protocol format props =>
    let header := mtype.to_string ++ strL " " ++
      joinSep (strL "/") (ports.map natChars) ++ strL " " ++ protocol ++
      strL " " ++ format
    Except.ok (strL "m=" ++ header ++
      (if props.isEmpty then []
       else strL "\r\n" ++ joinSep (strL "\r\n") (props.map MediaProp.to_string)))

/-- Rust `line.starts_with('m')`. -/
def startsWithM (l : Str) : Bool :=
  match l with
  | c :: _ => c = 'm'
  | [] => false

/-- `*acc.last_mut().unwrap() = format!("{}\n{line}", ...)`: append a line to
the last record of the accumulator, joined with `\n`. -/
def appendLast : List Str → Str → List Str
  | [], line => [line]
  | [x], line => [x ++ strL "\n" ++ line]
  | x :: y :: t, line => x :: appendLast (y :: t) line

/-- The indices of the lines beginning with `m`, taken before empty-line
filtering (`m_indices` in `SDP::from_str`). -/
def media_indices (lines : List Str) : List Nat :=
  (lines.enum.filter (fun p => startsWithM p.2)).map Prod.fst

/-- One step of the section-grouping fold in `SDP::from_str`: start a new
record when the accumulator is empty, the line's index is a media index,
there are no media lines at all, or the index lies before the first media
index; otherwise append the line to the most recent record. -/
def group_step (m_indices : List Nat) (acc : List Str) (p : Nat × Str) : List Str :=
  if acc.isEmpty || m_indices.contains p.1 || m_indices.isEmpty ||
      decide (p.1 < m_indices.headD 0) then
    acc ++ [p.2]
  else
    appendLast acc p.2

/-- The section grouping of `SDP::from_str`: record the media indices, drop
empty lines, and fold the remaining lines into one record per top-level SDP
element (media records collect their following lines joined with `\n`). -/
def group_media_lines (lines : List Str) : List Str :=
  (lines.filter (fun l => !l.isEmpty)).enum.foldl
    (group_step (media_indices lines)) []

/-- `SDP::from_str` (sdp.rs): normalize `\r\n` to `\n`, split on `\n`,
group the lines into records, and parse each grouped record. -/
def SDP.from_str (s : Str) : Res SDP := do
  let props ← (group_media_lines (splitChar '\n' (replaceCRLF s))).mapM SdpProp.from_str
  Except.ok (SDP.mk props)

/-- `SDP::to_string` (sdp.rs): join the serialized records with `\r\n` and
append one final `\r\n`. The line ending is hard-coded; there is no
line-ending parameter. -/
def SDP.to_string (sdp : SDP) : Res Str := do
  let rendered ← sdp.props.mapM SdpProp.to_string
  Except.ok (joinSep (strL "\r\n") rendered ++ strL "\r\n")

example : SDP.from_str (strL "v=0\n") = Except.ok (SDP.mk [SdpProp.Version 0]) := by decide
example : SDP.to_string (SDP.mk [SdpProp.Version 0]) = Except.ok (strL "v=0\r\n") := by decide
example : SDP.from_str (strL "t=1") = Except.error Failure.panic := by decide
example : SDP.from_str (strL "c=IN") = Except.error Failure.panic := by decide
example : SDP.from_str (strL "o=a b") = Except.error Failure.panic := by decide
example : SDP.from_str (strL "z=1") = Except.error Failure.panic := by decide
example : SDP.from_str (strL "c=IN IP4 1/2/3/4") = Except.error Failure.panic := by decide
example : SDP.from_str (strL "c=IN IP4 127.0.0.1") =
    Except.ok (SDP.mk [SdpProp.Connection NetworkType.Internet AddressType.IPv4
      (strL "127.0.0.1") none none none]) := by decide
example : SDP.to_string (SDP.mk [SdpProp.Connection NetworkType.Internet AddressType.IPv4
      (strL "127.0.0.1") none none none]) = Except.error Failure.panic := by decide
example : SDP.from_str (strL "r=1 2") =
    Except.ok (SDP.mk [SdpProp.RepeatTimes (strL "1") (strL "2") []]) := by decide
example : SDP.to_string (SDP.mk [SdpProp.RepeatTimes (strL "1") (strL "2") []]) =
    Except.ok (strL "r=1 2 \r\n") := by decide
example : SDP.from_str (strL "r=1 2 \r\n") =
    Except.ok (SDP.mk [SdpProp.RepeatTimes (strL "1") (strL "2") [[]]]) := by decide
example : SdpProp.from_str (strL "c=IN IP4 224.2.17.12/127") =
    Except.ok (SdpProp.Connection NetworkType.Internet AddressType.IPv4
      (strL "224.2.17.12") (some 127) none none) := by decide
example : EncryptionKeyMethod.from_str (strL "clear") =
    Except.ok (EncryptionKeyMethod.Clear []) := by decide
example : EncryptionKeyMethod.to_string (EncryptionKeyMethod.Clear []) = strL "clear:" := by decide
example : SDP.from_str (strL "m=audio 49170 RTP/AVP 0\nm=video 51372 RTP/AVP 99\na=rtpmap:99 h263-1998/90000") =
    Except.ok (SDP.mk [
      SdpProp.Media MediaType.Audio [49170] (strL "RTP/AVP") (strL "0") [],
      SdpProp.Media MediaType.Video [51372] (strL "RTP/AVP") (strL "99")
        [MediaProp.Attribute (strL "rtpmap") (some (strL "99 h263-1998/90000"))]]) := by decide
example :
    Except.bind (SDP.from_str (strL "v=0\r\no=- 9023059822302806521 801820409 IN IP4 0.0.0.0\r\ns=-\r\nt=0 0\r\na=group:BUNDLE\r\nm=video 0 UDP/TLS/RTP/SAVPF 0\r\nm=audio 0 UDP/TLS/RTP/SAVPF 0\r\n")) SDP.to_string =
    Except.ok (strL "v=0\r\no=- 9023059822302806521 801820409 IN IP4 0.0.0.0\r\ns=-\r\nt=0 0\r\na=group:BUNDLE\r\nm=video 0 UDP/TLS/RTP/SAVPF 0\r\nm=audio 0 UDP/TLS/RTP/SAVPF 0\r\n") := by decide
theorem splitCharAux_ne_nil (c : Char) (s acc : Str) : splitCharAux c s acc ≠ [] := by
  induction s generalizing acc with
  | nil => simp [splitCharAux]
  | cons x xs ih =>
    by_cases h : x = c
    · simp [splitCharAux, h]
    · simpa [splitCharAux, h] using ih (x :: acc)

theorem splitChar_ne_nil (c : Char) (s : Str) : splitChar c s ≠ [] :=
  splitCharAux_ne_nil c s []

theorem joinSep_cons₂ (sep x y : Str) (t : List Str) :
    joinSep sep (x :: y :: t) = x ++ sep ++ joinSep sep (y :: t) := rfl

theorem joinSep_splitCharAux (c : Char) (s acc : Str) :
    joinSep [c] (splitCharAux c s acc) = acc.reverse ++ s := by
  induction s generalizing acc with
  | nil => simp [splitCharAux, joinSep]
  | cons x xs ih =>
    by_cases h : x = c
    · obtain ⟨r, rs, hrs⟩ := List.exists_cons_of_ne_nil (splitCharAux_ne_nil c xs [])
      have ih0 := ih ([] : Str)
      rw [hrs] at ih0
      simp only [List.reverse_nil, List.nil_append] at ih0
      simp [splitCharAux, h, hrs, joinSep_cons₂, ih0]
    · rw [splitCharAux, if_neg h, ih (x :: acc)]
      simp

theorem joinSep_splitChar (c : Char) (s : Str) :
    joinSep [c] (splitChar c s) = s :=
  joinSep_splitCharAux c s []

theorem splitCharAux_of_not_mem {c : Char} {s : Str} (h : c ∉ s) (acc : Str) :
    splitCharAux c s acc = [acc.reverse ++ s] := by
  induction s generalizing acc with
  | nil => simp [splitCharAux]
  | cons x xs ih =>
    have hx : ¬ x = c := fun hxc => h (hxc ▸ List.mem_cons_self x xs)
    have hxs : c ∉ xs := fun hm => h (List.mem_cons_of_mem x hm)
    rw [splitCharAux, if_neg hx, ih hxs (x :: acc)]
    simp

theorem splitChar_of_not_mem {c : Char} {s : Str} (h : c ∉ s) :
    splitChar c s = [s] :=
  splitCharAux_of_not_mem h []

theorem splitCharAux_of_mem {c : Char} {s : Str} (h : c ∈ s) (acc : Str) :
    splitCharAux c s acc =
      (acc.reverse ++ s.takeWhile (fun y => decide (y ≠ c))) ::
        splitChar c ((s.dropWhile (fun y => decide (y ≠ c))).tail) := by
  induction s generalizing acc with
  | nil => cases h
  | cons x xs ih =>
    by_cases hx : x = c
    · subst hx
      simp [splitCharAux, List.takeWhile_cons, List.dropWhile_cons, splitChar]
    · have hxs : c ∈ xs := by
        cases List.mem_cons.mp h with
        | inl h1 => exact absurd h1.symm hx
        | inr h2 => exact h2
      rw [splitCharAux, if_neg hx, ih hxs (x :: acc)]
      simp [List.takeWhile_cons, List.dropWhile_cons, hx]

theorem splitChar_of_mem {c : Char} {s : Str} (h : c ∈ s) :
    splitChar c s =
      (s.takeWhile (fun y => decide (y ≠ c))) ::
        splitChar c ((s.dropWhile (fun y => decide (y ≠ c))).tail) := by
  simpa using splitCharAux_of_mem h []

theorem takeWhile_cons_dropWhile_tail {c : Char} {s : Str} (h : c ∈ s) :
    s.takeWhile (fun y => decide (y ≠ c)) ++
      c :: (s.dropWhile (fun y => decide (y ≠ c))).tail = s := by
  induction s with
  | nil => cases h
  | cons x xs ih =>
    by_cases hx : x = c
    · subst hx
      simp [List.takeWhile_cons, List.dropWhile_cons]
    · have hxs : c ∈ xs := by
        cases List.mem_cons.mp h with
        | inl h1 => exact absurd h1.symm hx
        | inr h2 => exact h2
      have ih2 := ih hxs
      simp only [decide_not] at ih2 ⊢
      simp [List.takeWhile_cons, List.dropWhile_cons, hx, ih2]

@[simp] theorem res_bind_error {α β : Type} (e : Failure) (f : α → Res β) :
    (Except.error e >>= f : Res β) = Except.error e := rfl

@[simp] theorem res_bind_ok {α β : Type} (a : α) (f : α → Res β) :
    (Except.ok a >>= f : Res β) = f a := rfl

theorem content_from_line_key (k : Char) (v : Str) (hk : ¬ k = '=') :
    content_from_line (k :: '=' :: v) = Except.ok (k, v) := by
  have hj : joinSep (strL "=") (splitChar '=' v) = v := joinSep_splitChar '=' v
  obtain ⟨r, rs, hrs⟩ := List.exists_cons_of_ne_nil (splitChar_ne_nil '=' v)
  rw [hrs] at hj
  have hsplit : splitChar '=' (k :: '=' :: v) = [k] :: r :: rs := by
    simp [splitChar, splitCharAux, hk]
    rw [← splitChar, hrs]
  simp [content_from_line, hsplit, hj]

theorem from_str_no_eq (s : Str) (h : ('=' : Char) ∉ s) :
    SdpProp.from_str s = perr (ParseError.UnknownToken s) := by
  have hsplit : splitChar '=' s = [s] := splitChar_of_not_mem h
  simp [SdpProp.from_str, content_from_line, hsplit, perr, Except.bind]

example : SdpProp.from_str (strL "abc") =
    perr (ParseError.UnknownToken (strL "abc")) := by decide

theorem from_str_attribute_flag (v : Str) (h : (':' : Char) ∉ v) :
    SdpProp.from_str ('a' :: '=' :: v) = Except.ok (SdpProp.Attribute v none) := by
  have hc := content_from_line_key 'a' v (by decide)
  have hsplit : splitChar ':' v = [v] := splitChar_of_not_mem h
  simp [SdpProp.from_str, hc, hsplit]

theorem from_str_attribute_colon (v : Str) (h : (':' : Char) ∈ v) :
    SdpProp.from_str ('a' :: '=' :: v) =
      Except.ok (SdpProp.Attribute (v.takeWhile (fun y => decide (y ≠ ':')))
        (some ((v.dropWhile (fun y => decide (y ≠ ':'))).tail))) := by
  have hc := content_from_line_key 'a' v (by decide)
  have hsplit := splitChar_of_mem h
  have hj : joinSep (strL ":")
      (splitChar ':' ((v.dropWhile (fun y => decide (y ≠ ':'))).tail)) =
      (v.dropWhile (fun y => decide (y ≠ ':'))).tail :=
    joinSep_splitChar ':' _
  obtain ⟨r, rs, hrs⟩ := List.exists_cons_of_ne_nil
    (splitChar_ne_nil ':' ((v.dropWhile (fun y => decide (y ≠ ':'))).tail))
  rw [hrs] at hsplit hj
  simp [SdpProp.from_str, hc, hsplit, hj, idx]

/-- C6: an `a=` line whose value has no `:` parses to an `Attribute` whose key
is the whole value with no attribute value, and serializes back to `a=key`
with no trailing `:`; a value with a `:` parses to the text before the first
`:` as key and everything after the first `:` (further `:` included) as the
attribute value, and serializes back to `a=key:value`, reproducing the
line. -/
theorem c6_attribute_roundtrip (v : Str) :
    ((':' : Char) ∉ v →
      SdpProp.from_str ('a' :: '=' :: v) = Except.ok (SdpProp.Attribute v none) ∧
      SdpProp.to_string (SdpProp.Attribute v none) = Except.ok ('a' :: '=' :: v)) ∧
    ((':' : Char) ∈ v →
      SdpProp.from_str ('a' :: '=' :: v) =
        Except.ok (SdpProp.Attribute (v.takeWhile (fun y => decide (y ≠ ':')))
          (some ((v.dropWhile (fun y => decide (y ≠ ':'))).tail))) ∧
      SdpProp.to_string (SdpProp.Attribute (v.takeWhile (fun y => decide (y ≠ ':')))
          (some ((v.dropWhile (fun y => decide (y ≠ ':'))).tail))) =
        Except.ok ('a' :: '=' :: v)) := by
  constructor
  · intro h
    exact ⟨from_str_attribute_flag v h, rfl⟩
  · intro h
    refine ⟨from_str_attribute_colon v h, ?_⟩
    have hv := takeWhile_cons_dropWhile_tail h
    show Except.ok (strL "a=" ++ v.takeWhile (fun y => decide (y ≠ ':')) ++ strL ":" ++
      (v.dropWhile (fun y => decide (y ≠ ':'))).tail) = Except.ok ('a' :: '=' :: v)
    refine congrArg Except.ok ?_
    conv_rhs => rw [← hv]
    simp [strL, List.append_assoc]

/-- Witness for C6 at the concrete attribute lines `a=recvonly`
and `a=fmtp:97 apt=96`. -/
theorem c6_attribute_roundtrip_witness :
    (((':' : Char) ∉ strL "recvonly") ∧
      SdpProp.from_str ('a' :: '=' :: strL "recvonly") =
          Except.ok (SdpProp.Attribute (strL "recvonly") none) ∧
      SdpProp.to_string (SdpProp.Attribute (strL "recvonly") none) =
          Except.ok ('a' :: '=' :: strL "recvonly")) ∧
    (((':' : Char) ∈ strL "fmtp:97 apt=96") ∧
      SdpProp.from_str ('a' :: '=' :: strL "fmtp:97 apt=96") =
          Except.ok (SdpProp.Attribute
            ((strL "fmtp:97 apt=96").takeWhile (fun y => decide (y ≠ ':')))
            (some (((strL "fmtp:97 apt=96").dropWhile (fun y => decide (y ≠ ':'))).tail))) ∧
      SdpProp.to_string (SdpProp.Attribute
            ((strL "fmtp:97 apt=96").takeWhile (fun y => decide (y ≠ ':')))
            (some (((strL "fmtp:97 apt=96").dropWhile (fun y => decide (y ≠ ':'))).tail))) =
          Except.ok ('a' :: '=' :: strL "fmtp:97 apt=96")) :=
  ⟨⟨by decide, (c6_attribute_roundtrip (strL "recvonly")).1 (by decide)⟩,
    ⟨by decide, (c6_attribute_roundtrip (strL "fmtp:97 apt=96")).2 (by decide)⟩⟩

theorem network_type_inverse (t : Str) (v : NetworkType)
    (h : NetworkType.from_str t = Except.ok v) : NetworkType.to_string v = t := by
  by_cases ht : t = strL "IN"
  · cases v
    rw [ht]
    rfl
  · simp [NetworkType.from_str, ht, perr] at h

theorem address_type_inverse (t : Str) (v : AddressType)
    (h : AddressType.from_str t = Except.ok v) : AddressType.to_string v = t := by
  by_cases h4 : t = strL "IP4"
  · subst h4
    have he : AddressType.from_str (strL "IP4") = Except.ok AddressType.IPv4 := by decide
    rw [he] at h
    injection h with h2
    rw [← h2]
    decide
  · by_cases h6 : t = strL "IP6"
    · subst h6
      have he : AddressType.from_str (strL "IP6") = Except.ok AddressType.IPv6 := by decide
      rw [he] at h
      injection h with h2
      rw [← h2]
      decide
    · simp [AddressType.from_str, h4, h6, perr] at h

theorem bandwidth_type_inverse (t : Str) (v : BandwidthType)
    (h : BandwidthType.from_str t = Except.ok v) : BandwidthType.to_string v = t := by
  by_cases h1 : t = strL "CT"
  · subst h1
    have he : BandwidthType.from_str (strL "CT") =
        Except.ok BandwidthType.ConferenceTotal := by decide
    rw [he] at h
    injection h with h2
    rw [← h2]
    decide
  · by_cases h2 : t = strL "AS"
    · subst h2
      have he : BandwidthType.from_str (strL "AS") =
          Except.ok BandwidthType.ApplicationSpecific := by decide
      rw [he] at h
      injection h with h2
      rw [← h2]
      decide
    · simp [BandwidthType.from_str, h1, h2, perr] at h

theorem media_type_inverse (t : Str) (v : MediaType)
    (h : MediaType.from_str t = Except.ok v) : MediaType.to_string v = t := by
  by_cases h1 : t = strL "audio"
  · subst h1
    have he : MediaType.from_str (strL "audio") = Except.ok MediaType.Audio := by decide
    rw [he] at h
    injection h with h2
    rw [← h2]
    decide
  · by_cases h2 : t = strL "video"
    · subst h2
      have he : MediaType.from_str (strL "video") = Except.ok MediaType.Video := by decide
      rw [he] at h
      injection h with h2
      rw [← h2]
      decide
    · by_cases h3 : t = strL "text"
      · subst h3
        have he : MediaType.from_str (strL "text") = Except.ok MediaType.Text := by decide
        rw [he] at h
        injection h with h2
        rw [← h2]
        decide
      · by_cases h4 : t = strL "application"
        · subst h4
          have he : MediaType.from_str (strL "application") =
              Except.ok MediaType.Application := by decide
          rw [he] at h
          injection h with h2
          rw [← h2]
          decide
        · simp [MediaType.from_str, h1, h2, h3, h4, perr] at h

theorem encryption_key_method_inverse (t : Str) (v : EncryptionKeyMethod)
    (h : EncryptionKeyMethod.from_str t = Except.ok v)
    (hd : t = strL "prompt" ∨ (':' : Char) ∈ t) :
    EncryptionKeyMethod.to_string v = t := by
  by_cases hp : t = strL "prompt"
  · simp [EncryptionKeyMethod.from_str, hp] at h
    rw [← h, hp]
    rfl
  · have hcol : (':' : Char) ∈ t := hd.resolve_left hp
    have hsplit := splitChar_of_mem hcol
    have hv := takeWhile_cons_dropWhile_tail hcol
    have hj : joinSep (strL ":")
        (splitChar ':' ((t.dropWhile (fun y => decide (y ≠ ':'))).tail)) =
        (t.dropWhile (fun y => decide (y ≠ ':'))).tail :=
      joinSep_splitChar ':' _
    rw [EncryptionKeyMethod.from_str, if_neg hp, hsplit] at h
    simp only [List.headD_cons, List.drop_succ_cons, List.drop_zero, hj] at h
    by_cases hc1 : t.takeWhile (fun y => decide (y ≠ ':')) = strL "clear"
    · rw [if_pos hc1] at h
      cases h
      show strL "clear:" ++ (t.dropWhile (fun y => decide (y ≠ ':'))).tail = t
      conv_rhs => rw [← hv]
      rw [hc1]
      rfl
    · rw [if_neg hc1] at h
      by_cases hc2 : t.takeWhile (fun y => decide (y ≠ ':')) = strL "base64"
      · rw [if_pos hc2] at h
        cases h
        show strL "base64:" ++ (t.dropWhile (fun y => decide (y ≠ ':'))).tail = t
        conv_rhs => rw [← hv]
        rw [hc2]
        rfl
      · rw [if_neg hc2] at h
        by_cases hc3 : t.takeWhile (fun y => decide (y ≠ ':')) = strL "uri"
        · rw [if_pos hc3] at h
          cases h
          show strL "uri:" ++ (t.dropWhile (fun y => decide (y ≠ ':'))).tail = t
          conv_rhs => rw [← hv]
          rw [hc3]
          rfl
        · rw [if_neg hc3] at h
          cases h

theorem encryption_key_method_unknown (t : Str) (hp : ¬ t = strL "prompt")
    (h1 : ¬ (splitChar ':' t).headD [] = strL "clear")
    (h2 : ¬ (splitChar ':' t).headD [] = strL "base64")
    (h3 : ¬ (splitChar ':' t).headD [] = strL "uri") :
    EncryptionKeyMethod.from_str t = perr (ParseError.UnknownToken t) := by
  rw [EncryptionKeyMethod.from_str, if_neg hp]
  simp only [if_neg h1, if_neg h2, if_neg h3]

/-- C9 counterexample: the bare token `clear` parses successfully (to a
`Clear` method with an empty key) but formats back with a trailing colon,
so formatting is not the inverse of this successful parse. -/
theorem c9_counterexample :
    EncryptionKeyMethod.from_str (strL "clear") =
      Except.ok (EncryptionKeyMethod.Clear []) ∧
    EncryptionKeyMethod.to_string (EncryptionKeyMethod.Clear []) = strL "clear:" ∧
    ¬ strL "clear:" = strL "clear" := by decide

/-- C9 (amended): for the network, address, bandwidth and media type
enumerations, formatting is the exact inverse of every successful
case-sensitive parse, and parsing fails with `UnknownToken` on every token
outside the fixed forms. For encryption-key methods the inverse holds for
`prompt` and for every token containing `:`; the bare method names parse
(with an empty key) but format with a trailing `:`, and a token whose first
`:`-piece is not a method name fails with `UnknownToken`. -/
theorem c9_amended :
    (∀ t v, NetworkType.from_str t = Except.ok v → NetworkType.to_string v = t) ∧
    (∀ t, ¬ t = strL "IN" →
      NetworkType.from_str t = perr (ParseError.UnknownToken t)) ∧
    (∀ t v, AddressType.from_str t = Except.ok v → AddressType.to_string v = t) ∧
    (∀ t, ¬ t = strL "IP4" → ¬ t = strL "IP6" →
      AddressType.from_str t = perr (ParseError.UnknownToken t)) ∧
    (∀ t v, BandwidthType.from_str t = Except.ok v → BandwidthType.to_string v = t) ∧
    (∀ t, ¬ t = strL "CT" → ¬ t = strL "AS" →
      BandwidthType.from_str t = perr (ParseError.UnknownToken t)) ∧
    (∀ t v, MediaType.from_str t = Except.ok v → MediaType.to_string v = t) ∧
    (∀ t, ¬ t = strL "audio" → ¬ t = strL "video" → ¬ t = strL "text" →
      ¬ t = strL "application" →
      MediaType.from_str t = perr (ParseError.UnknownToken t)) ∧
    (∀ t v, EncryptionKeyMethod.from_str t = Except.ok v →
      (t = strL "prompt" ∨ (':' : Char) ∈ t) →
      EncryptionKeyMethod.to_string v = t) ∧
    (∀ t, ¬ t = strL "prompt" →
      ¬ (splitChar ':' t).headD [] = strL "clear" →
      ¬ (splitChar ':' t).headD [] = strL "base64" →
      ¬ (splitChar ':' t).headD [] = strL "uri" →
      EncryptionKeyMethod.from_str t = perr (ParseError.UnknownToken t)) := by
  refine ⟨network_type_inverse, ?_, address_type_inverse, ?_,
    bandwidth_type_inverse, ?_, media_type_inverse, ?_,
    encryption_key_method_inverse, encryption_key_method_unknown⟩
  · intro t ht
    simp [NetworkType.from_str, ht]
  · intro t h4 h6
    simp [AddressType.from_str, h4, h6]
  · intro t h1 h2
    simp [BandwidthType.from_str, h1, h2]
  · intro t h1 h2 h3 h4
    simp [MediaType.from_str, h1, h2, h3, h4]

/-- Witness for C9 at concrete tokens: `IP4` round-trips through the address
type enumeration, `in` (wrong case) is rejected, and `clear:key` round-trips
through the encryption-key methods. -/
theorem c9_amended_witness :
    (AddressType.from_str (strL "IP4") = Except.ok AddressType.IPv4 ∧
      AddressType.to_string AddressType.IPv4 = strL "IP4") ∧
    (¬ strL "in" = strL "IN" ∧
      NetworkType.from_str (strL "in") = perr (ParseError.UnknownToken (strL "in"))) ∧
    (EncryptionKeyMethod.from_str (strL "clear:key") =
        Except.ok (EncryptionKeyMethod.Clear (strL "key")) ∧
      ((strL "clear:key" = strL "prompt" ∨ (':' : Char) ∈ strL "clear:key")) ∧
      EncryptionKeyMethod.to_string (EncryptionKeyMethod.Clear (strL "key")) =
        strL "clear:key") :=
  ⟨⟨by decide, c9_amended.2.2.1 (strL "IP4") AddressType.IPv4 (by decide)⟩,
    ⟨by decide, c9_amended.2.1 (strL "in") (by decide)⟩,
    ⟨by decide, by decide,
      c9_amended.2.2.2.2.2.2.2.2.1 (strL "clear:key")
        (EncryptionKeyMethod.Clear (strL "key")) (by decide) (by decide)⟩⟩

/-- C2 counterexample: the line `t=1` (a timing line with a single token)
makes the parser panic — the result is the panic outcome, not a returned
parse error. -/
theorem c2_counterexample :
    SdpProp.from_str (strL "t=1") = Except.error Failure.panic := by decide

/-- C2 (amended): a line without `=` yields an `UnknownToken` parse error
carrying the whole line (never a panic), but a line whose value has fewer
space-separated tokens than its record type requires (`c=IN`, `o=a b`,
`t=1`, a `z=` line with an odd token count) or whose connection address
token has more than three `/`-separated parts makes the parser panic
instead of returning a parse error. -/
theorem c2_amended (s : Str) (h : ('=' : Char) ∉ s) :
    SdpProp.from_str s = perr (ParseError.UnknownToken s) ∧
    SDP.from_str (strL "c=IN") = Except.error Failure.panic ∧
    SDP.from_str (strL "o=a b") = Except.error Failure.panic ∧
    SDP.from_str (strL "t=1") = Except.error Failure.panic ∧
    SDP.from_str (strL "z=1") = Except.error Failure.panic ∧
    SDP.from_str (strL "c=IN IP4 1/2/3/4") = Except.error Failure.panic :=
  ⟨from_str_no_eq s h, by decide, by decide, by decide, by decide, by decide⟩

/-- Witness for C2 at the concrete garbage line `abc`. -/
theorem c2_amended_witness :
    (('=' : Char) ∉ strL "abc") ∧
    SdpProp.from_str (strL "abc") = perr (ParseError.UnknownToken (strL "abc")) :=
  ⟨by decide, (c2_amended (strL "abc") (by decide)).1⟩

/-- A media section as structured data: its `m=` header line and the
following lines up to the next header. -/
def flat_sections : List (Str × List Str) → List Str
  | [] => []
  | sec :: rest => sec.1 :: (sec.2 ++ flat_sections rest)

/-- `media_indices` generalized to an arbitrary starting index. -/
def media_indices_from (n : Nat) (lines : List Str) : List Nat :=
  ((lines.enumFrom n).filter (fun p => startsWithM p.2)).map Prod.fst

theorem media_indices_eq_from (lines : List Str) :
    media_indices lines = media_indices_from 0 lines := rfl

theorem media_indices_from_append (n : Nat) (a b : List Str) :
    media_indices_from n (a ++ b) =
      media_indices_from n a ++ media_indices_from (n + a.length) b := by
  simp [media_indices_from, List.enumFrom_append, List.filter_append]

theorem media_indices_from_nil_of_no_media {a : List Str} (n : Nat)
    (h : ∀ x ∈ a, startsWithM x = false) : media_indices_from n a = [] := by
  have hf : (a.enumFrom n).filter (fun p => startsWithM p.2) = [] := by
    rw [List.filter_eq_nil_iff]
    intro p hp
    simp [h p.2 (List.snd_mem_of_mem_enumFrom hp)]
  simp [media_indices_from, hf]

theorem media_indices_from_cons_media {x : Str} (n : Nat) (t : List Str)
    (h : startsWithM x = true) :
    media_indices_from n (x :: t) = n :: media_indices_from (n + 1) t := by
  have hcons : (x :: t).enumFrom n = (n, x) :: t.enumFrom (n + 1) := rfl
  simp [media_indices_from, hcons, h]

theorem mem_media_indices_iff {lines : List Str} {i : Nat} :
    i ∈ media_indices lines ↔
      ∃ x, lines.get? i = some x ∧ startsWithM x = true := by
  simp only [media_indices, List.mem_map, List.mem_filter]
  constructor
  · rintro ⟨p, ⟨hpe, hpm⟩, hpi⟩
    refine ⟨p.2, ?_, hpm⟩
    have := List.mk_mem_enumFrom_iff_le_and_getElem?_sub.mp
      (List.enum_eq_enumFrom ▸ hpe : (p.1, p.2) ∈ lines.enumFrom 0)
    simpa [List.get?_eq_getElem?, hpi] using this.2
  · rintro ⟨x, hx, hm⟩
    refine ⟨(i, x), ⟨?_, hm⟩, rfl⟩
    rw [List.enum_eq_enumFrom]
    exact List.mk_mem_enumFrom_iff_le_and_getElem?_sub.mpr
      ⟨Nat.zero_le i, by simpa [List.get?_eq_getElem?] using hx⟩

theorem mem_enum_media_iff {lines : List Str} {p : Nat × Str}
    (hp : p ∈ lines.enum) :
    (p.1 ∈ media_indices lines ↔ startsWithM p.2 = true) := by
  have hget : lines.get? p.1 = some p.2 := by
    have := List.mk_mem_enumFrom_iff_le_and_getElem?_sub.mp
      (List.enum_eq_enumFrom ▸ hp : (p.1, p.2) ∈ lines.enumFrom 0)
    simpa [List.get?_eq_getElem?] using this.2
  constructor
  · intro hi
    obtain ⟨x, hx, hm⟩ := mem_media_indices_iff.mp hi
    rw [hget] at hx
    cases hx
    exact hm
  · intro hm
    exact mem_media_indices_iff.mpr ⟨p.2, hget, hm⟩

theorem appendLast_append (base : List Str) (cur line : Str) :
    appendLast (base ++ [cur]) line = base ++ [cur ++ strL "\n" ++ line] := by
  induction base with
  | nil => rfl
  | cons b bs ih =>
    obtain ⟨y, t, hyt⟩ : ∃ y t, bs ++ [cur] = y :: t := by
      cases bs with
      | nil => exact ⟨cur, [], rfl⟩
      | cons c cs => exact ⟨c, cs ++ [cur], rfl⟩
    show appendLast (b :: (bs ++ [cur])) line = b :: (bs ++ [cur ++ strL "\n" ++ line])
    rw [hyt]
    show b :: appendLast (y :: t) line = b :: (bs ++ [cur ++ strL "\n" ++ line])
    rw [← hyt, ih]

theorem joinSep_glue (sep cur x : Str) (xs : List Str) :
    joinSep sep ((cur ++ sep ++ x) :: xs) = joinSep sep (cur :: x :: xs) := by
  cases xs with
  | nil => rfl
  | cons y ys => simp [joinSep_cons₂, List.append_assoc]

theorem foldl_group_step_push (MI : List Nat) (l : List Str) (n : Nat)
    (h : ∀ p ∈ l.enumFrom n, p.1 ∈ MI ∨ MI = [] ∨ p.1 < MI.headD 0) :
    ∀ acc, (l.enumFrom n).foldl (group_step MI) acc = acc ++ l := by
  induction l generalizing n with
  | nil => intro acc; simp
  | cons x xs ih =>
    intro acc
    have hcons : (x :: xs).enumFrom n = (n, x) :: xs.enumFrom (n + 1) := rfl
    have step1 : group_step MI acc (n, x) = acc ++ [x] := by
      have hcond : (acc.isEmpty || MI.contains n || MI.isEmpty ||
          decide (n < MI.headD 0)) = true := by
        rcases h (n, x) (hcons ▸ List.mem_cons_self _ _) with hm | hnil | hlt
        · have h1 : MI.contains n = true := List.elem_iff.mpr hm
          rw [h1]
          simp
        · have h2 : MI.isEmpty = true := by rw [hnil]; rfl
          rw [h2]
          simp
        · have h3 : decide (n < MI.headD 0) = true := decide_eq_true hlt
          rw [h3]
          simp
      rw [group_step, hcond]
      rfl
    rw [hcons, List.foldl_cons, step1,
      ih (n + 1) (fun p hp => h p (hcons ▸ List.mem_cons_of_mem _ hp)) (acc ++ [x])]
    simp

theorem foldl_group_step_attrs (MI : List Nat) (a : List Str) (n : Nat)
    (base : List Str) (cur : Str)
    (h : ∀ p ∈ a.enumFrom n, ¬ p.1 ∈ MI ∧ ¬ p.1 < MI.headD 0)
    (hne : ¬ MI = []) :
    (a.enumFrom n).foldl (group_step MI) (base ++ [cur]) =
      base ++ [joinSep (strL "\n") (cur :: a)] := by
  induction a generalizing n cur with
  | nil => simp [joinSep]
  | cons x xs ih =>
    have hcons : (x :: xs).enumFrom n = (n, x) :: xs.enumFrom (n + 1) := rfl
    obtain ⟨hm, hlt⟩ := h (n, x) (hcons ▸ List.mem_cons_self _ _)
    have step1 : group_step MI (base ++ [cur]) (n, x) =
        base ++ [cur ++ strL "\n" ++ x] := by
      have h0 : (base ++ [cur]).isEmpty = false := by cases base <;> rfl
      have h1 : MI.contains n = false := by
        cases hcontains : MI.contains n with
        | false => rfl
        | true => exact absurd (List.elem_iff.mp hcontains) hm
      have h2 : MI.isEmpty = false := by
        cases MI with
        | nil => exact absurd rfl hne
        | cons q qs => rfl
      have h3 : decide (n < MI.headD 0) = false := decide_eq_false hlt
      have hcond : ((base ++ [cur]).isEmpty || MI.contains n || MI.isEmpty ||
          decide (n < MI.headD 0)) = false := by
        rw [h0, h1, h2, h3]
        rfl
      rw [group_step, hcond]
      simp only [Bool.false_eq_true, if_false]
      exact appendLast_append base cur x
    rw [hcons, List.foldl_cons, step1,
      ih (n + 1) (cur ++ strL "\n" ++ x)
        (fun p hp => h p (hcons ▸ List.mem_cons_of_mem _ hp))]
    rw [joinSep_glue]

theorem foldl_group_step_sections (MI : List Nat)
    (secs : List (Str × List Str)) (n : Nat) (base : List Str)
    (hsec : ∀ sec ∈ secs, startsWithM sec.1 = true ∧
      ∀ x ∈ sec.2, startsWithM x = false)
    (hmem : ∀ p ∈ (flat_sections secs).enumFrom n,
      (p.1 ∈ MI ↔ startsWithM p.2 = true))
    (hne : ¬ MI = [])
    (hhead : MI.headD 0 ≤ n) :
    ((flat_sections secs).enumFrom n).foldl (group_step MI) base =
      base ++ secs.map (fun sec => joinSep (strL "\n") (sec.1 :: sec.2)) := by
  induction secs generalizing n base with
  | nil => simp [flat_sections]
  | cons sec rest ih =>
    obtain ⟨hm, hattr⟩ := hsec sec (List.mem_cons_self _ _)
    have hflat : flat_sections (sec :: rest) =
        sec.1 :: (sec.2 ++ flat_sections rest) := rfl
    have hcons : (flat_sections (sec :: rest)).enumFrom n =
        (n, sec.1) :: (sec.2.enumFrom (n + 1) ++
          (flat_sections rest).enumFrom (n + 1 + sec.2.length)) := by
      rw [hflat]
      show (sec.1 :: (sec.2 ++ flat_sections rest)).enumFrom n = _
      have : (sec.1 :: (sec.2 ++ flat_sections rest)).enumFrom n =
          (n, sec.1) :: (sec.2 ++ flat_sections rest).enumFrom (n + 1) := rfl
      rw [this, List.enumFrom_append]
    have hself : n ∈ MI := by
      have := hmem (n, sec.1) (by rw [hcons]; exact List.mem_cons_self _ _)
      exact this.mpr hm
    have step1 : group_step MI base (n, sec.1) = base ++ [sec.1] := by
      simp [group_step, List.elem_iff, hself]
    rw [hcons, List.foldl_cons, step1, List.foldl_append]
    have hmem2 : ∀ p ∈ (sec.2 ++ flat_sections rest).enumFrom (n + 1),
        (p.1 ∈ MI ↔ startsWithM p.2 = true) := by
      intro p hp
      refine hmem p ?_
      rw [hcons]
      refine List.mem_cons_of_mem _ ?_
      rw [List.enumFrom_append] at hp
      simpa [Nat.add_assoc, Nat.add_comm 1 sec.2.length] using hp
    have hinner : (sec.2.enumFrom (n + 1)).foldl (group_step MI)
        (base ++ [sec.1]) = base ++ [joinSep (strL "\n") (sec.1 :: sec.2)] := by
      refine foldl_group_step_attrs MI sec.2 (n + 1) base sec.1 ?_ hne
      intro p hp
      have hpmem : p ∈ (sec.2 ++ flat_sections rest).enumFrom (n + 1) := by
        rw [List.enumFrom_append]
        exact List.mem_append_left _ hp
      have hiff := hmem2 p hpmem
      have hfalse : startsWithM p.2 = false :=
        hattr p.2 (List.snd_mem_of_mem_enumFrom hp)
      constructor
      · intro hin
        have := hiff.mp hin
        rw [hfalse] at this
        cases this
      · intro hlt
        have hge := List.le_fst_of_mem_enumFrom hp
        omega
    rw [hinner]
    have hrest : ((flat_sections rest).enumFrom (n + 1 + sec.2.length)).foldl
        (group_step MI) (base ++ [joinSep (strL "\n") (sec.1 :: sec.2)]) =
        base ++ [joinSep (strL "\n") (sec.1 :: sec.2)] ++
          rest.map (fun s2 => joinSep (strL "\n") (s2.1 :: s2.2)) := by
      refine ih (n + 1 + sec.2.length) _
        (fun s2 hs2 => hsec s2 (List.mem_cons_of_mem _ hs2)) ?_ ?_
      · intro p hp
        refine hmem2 p ?_
        rw [List.enumFrom_append]
        exact List.mem_append_right _ hp
      · omega
    rw [hrest]
    simp

/-- The general section-grouping law of `SDP::from_str`: for nonempty lines
consisting of a media-free prefix followed by media sections (each an `m=`
header plus its non-media lines), grouping returns the prefix lines
unchanged and, for each media section, one record merging the header with
every following line up to the next header or end of input, joined with
`\n`. -/
theorem group_media_lines_sections (pre : List Str)
    (secs : List (Str × List Str))
    (hnonempty : ∀ x ∈ pre ++ flat_sections secs, ¬ x = [])
    (hpre : ∀ x ∈ pre, startsWithM x = false)
    (hsec : ∀ sec ∈ secs, startsWithM sec.1 = true ∧
      ∀ x ∈ sec.2, startsWithM x = false) :
    group_media_lines (pre ++ flat_sections secs) =
      pre ++ secs.map (fun sec => joinSep (strL "\n") (sec.1 :: sec.2)) := by
  have hfilter : (pre ++ flat_sections secs).filter (fun l => !l.isEmpty) =
      pre ++ flat_sections secs := by
    rw [List.filter_eq_self]
    intro x hx
    simpa using hnonempty x hx
  rw [group_media_lines, hfilter]
  cases secs with
  | nil =>
    have hMI : media_indices (pre ++ flat_sections ([] : List (Str × List Str))) = [] := by
      rw [media_indices_eq_from]
      refine media_indices_from_nil_of_no_media 0 ?_
      intro x hx
      rcases List.mem_append.mp hx with hxp | hxf
      · exact hpre x hxp
      · cases hxf
    rw [hMI, List.enum_eq_enumFrom]
    rw [foldl_group_step_push [] _ 0 (fun p _ => Or.inr (Or.inl rfl)) []]
    simp [flat_sections]
  | cons sec rest =>
    have hms := hsec sec (List.mem_cons_self _ _)
    have hMI : media_indices (pre ++ flat_sections (sec :: rest)) =
        pre.length :: media_indices_from (pre.length + 1)
          (sec.2 ++ flat_sections rest) := by
      rw [media_indices_eq_from, media_indices_from_append,
        media_indices_from_nil_of_no_media 0 hpre]
      show media_indices_from (0 + pre.length) (flat_sections (sec :: rest)) = _
      have hflat : flat_sections (sec :: rest) =
          sec.1 :: (sec.2 ++ flat_sections rest) := rfl
      rw [hflat, Nat.zero_add,
        media_indices_from_cons_media pre.length _ hms.1]
    set MI := media_indices (pre ++ flat_sections (sec :: rest)) with hMIdef
    have hne : ¬ MI = [] := by rw [hMI]; simp
    have hhead : MI.headD 0 = pre.length := by rw [hMI]; rfl
    have hiff : ∀ p ∈ (pre ++ flat_sections (sec :: rest)).enum,
        (p.1 ∈ MI ↔ startsWithM p.2 = true) :=
      fun p hp => mem_enum_media_iff hp
    rw [List.enum_eq_enumFrom, List.enumFrom_append, List.foldl_append]
    have hpref : (pre.enumFrom 0).foldl (group_step MI) [] = [] ++ pre := by
      refine foldl_group_step_push MI pre 0 ?_ []
      intro p hp
      refine Or.inr (Or.inr ?_)
      rw [hhead]
      have := List.fst_lt_add_of_mem_enumFrom hp
      omega
    rw [hpref]
    rw [foldl_group_step_sections MI (sec :: rest) (0 + pre.length) ([] ++ pre)
      hsec ?_ hne (by rw [hhead]; omega)]
    · simp
    · intro p hp
      refine hiff p ?_
      rw [List.enum_eq_enumFrom, List.enumFrom_append]
      exact List.mem_append_right _ hp

/-- C8: splitting a `c=` line's third space token on `/` yields the address
alone for one part, address plus TTL for two, address plus TTL plus address
count for three, and never a connection for any other arity (the code hits
its `unreachable!` branch, a panic); tokens after the third are rejoined
with spaces into the optional suffix; in particular
`c=IN IP4 224.2.17.12/127` parses to a `Connection` with net type
`Internet`, address type `IPv4`, address `224.2.17.12`, TTL `127`, no
address count and no suffix. -/
theorem c8_connection_address_split (a b c : Str) (n m : Nat)
    (hb : parseUnsigned UMAX b = Except.ok n)
    (hc : parseUnsigned UMAX c = Except.ok m)
    (l : List Str) (hl : 4 ≤ l.length) :
    get_options_from_address_split [a] = Except.ok (a, none, none) ∧
    get_options_from_address_split [a, b] = Except.ok (a, some n, none) ∧
    get_options_from_address_split [a, b, c] = Except.ok (a, some n, some m) ∧
    get_options_from_address_split l = Except.error Failure.panic ∧
    SdpProp.from_str (strL "c=IN IP4 224.2.17.12/127") =
      Except.ok (SdpProp.Connection NetworkType.Internet AddressType.IPv4
        (strL "224.2.17.12") (some 127) none none) ∧
    SdpProp.from_str (strL "c=IN IP4 1.2.3.4/5 extra stuff") =
      Except.ok (SdpProp.Connection NetworkType.Internet AddressType.IPv4
        (strL "1.2.3.4") (some 5) none (some (strL "extra stuff"))) := by
  refine ⟨rfl, ?_, ?_, ?_, by decide, by decide⟩
  · simp [get_options_from_address_split, hb, liftInt]
  · simp [get_options_from_address_split, hb, hc, liftInt]
  · rcases l with _ | ⟨x1, _ | ⟨x2, _ | ⟨x3, _ | ⟨x4, rest⟩⟩⟩⟩
    · simp at hl
    · simp at hl
    · simp at hl
    · simp at hl
    · rfl

/-- Witness for C8 at concrete splits of the token `224.2.17.12/127` and a
four-part split. -/
theorem c8_connection_address_split_witness :
    parseUnsigned UMAX (strL "127") = Except.ok 127 ∧
    parseUnsigned UMAX (strL "5") = Except.ok 5 ∧
    4 ≤ ([strL "1", strL "2", strL "3", strL "4"] : List Str).length ∧
    get_options_from_address_split [strL "224.2.17.12", strL "127"] =
      Except.ok (strL "224.2.17.12", some 127, none) ∧
    get_options_from_address_split [strL "1", strL "2", strL "3", strL "4"] =
      Except.error Failure.panic :=
  ⟨by decide, by decide, by decide,
    (c8_connection_address_split (strL "224.2.17.12") (strL "127") (strL "5")
      127 5 (by decide) (by decide) [strL "1", strL "2", strL "3", strL "4"]
      (by decide)).2.1,
    (c8_connection_address_split (strL "224.2.17.12") (strL "127") (strL "5")
      127 5 (by decide) (by decide) [strL "1", strL "2", strL "3", strL "4"]
      (by decide)).2.2.2.1⟩

/-- C10: the media-level `Connection` serializer is total — it returns the
`c=` line built from the address with `/ttl` appended exactly when the TTL
is present and `/num_addresses` appended exactly when the address count is
present; in particular (unlike the top-level serializer) an IPv4 connection
without a TTL serializes successfully to its bare address. -/
theorem c10_media_connection_total (net_type : NetworkType)
    (address_type : AddressType) (address : Str) (ttl num_addresses : Option Nat)
    (suffix : Option Str) :
    MediaProp.to_string
        (MediaProp.Connection net_type address_type address ttl num_addresses suffix) =
      build_connection_lines net_type address_type suffix
        ((address ++ (match ttl with
          | some t => strL "/" ++ natChars t
          | none => [])) ++
        (match num_addresses with
          | some nn => strL "/" ++ natChars nn
          | none => [])) ∧
    MediaProp.to_string (MediaProp.Connection NetworkType.Internet AddressType.IPv4
        address none none none) = strL "c=IN IP4 " ++ address := by
  constructor
  · cases ttl <;> cases num_addresses <;>
      simp [MediaProp.to_string, List.append_assoc]
  · rfl

/-- C1: the claim needs a serialization that matches an LF input's line
ending, but the serializer hard-codes CRLF (the crate's own test expects an
LF mode selected by a line-ending argument that this code does not have).
Evaluating the code: `v=0\n` parses, its document serializes only to
`v=0\r\n`, which differs from the input, so the matching-convention
round-trip identity fails for LF input. -/
theorem c1_lf_roundtrip_fails_eval :
    SDP.from_str (strL "v=0\n") = Except.ok (SDP.mk [SdpProp.Version 0]) ∧
    SDP.to_string (SDP.mk [SdpProp.Version 0]) = Except.ok (strL "v=0\r\n") ∧
    ¬ strL "v=0\r\n" = strL "v=0\n" := by decide

/-- C3: serialization is not total on parse-produced documents — the
top-level connection line `c=IN IP4 127.0.0.1` parses to an IPv4
`Connection` with no TTL, and serializing that document panics on the
forced `ttl.unwrap()`. -/
theorem c3_ipv4_ttl_unwrap_panics :
    SDP.from_str (strL "c=IN IP4 127.0.0.1") =
      Except.ok (SDP.mk [SdpProp.Connection NetworkType.Internet AddressType.IPv4
        (strL "127.0.0.1") none none none]) ∧
    SDP.to_string (SDP.mk [SdpProp.Connection NetworkType.Internet AddressType.IPv4
        (strL "127.0.0.1") none none none]) = Except.error Failure.panic := by decide

/-- C4: serialization takes no line-ending parameter — every successful
serialization is the CRLF join of the serialized records with exactly one
trailing CRLF appended, and for a two-record document that CRLF rendering
is not the LF rendering the claim's caller-supplied LF convention would
produce. -/
theorem c4_crlf_hardcoded_eval (doc : SDP) (s : Str)
    (h : SDP.to_string doc = Except.ok s) :
    (∃ rendered, doc.props.mapM SdpProp.to_string = Except.ok rendered ∧
      s = joinSep (strL "\r\n") rendered ++ strL "\r\n") ∧
    SDP.to_string (SDP.mk [SdpProp.Version 0, SdpProp.SessionName (strL "-")]) =
      Except.ok (strL "v=0\r\ns=-\r\n") ∧
    ¬ strL "v=0\r\ns=-\r\n" = strL "v=0\ns=-\n" := by
  have hdo : SDP.to_string doc = Except.bind (doc.props.mapM SdpProp.to_string)
      (fun rendered => Except.ok (joinSep (strL "\r\n") rendered ++ strL "\r\n")) := rfl
  rw [hdo] at h
  cases hm : doc.props.mapM SdpProp.to_string with
  | error e =>
    rw [hm] at h
    exact absurd h (by simp [Except.bind])
  | ok rendered =>
    rw [hm] at h
    simp only [Except.bind, Except.ok.injEq] at h
    exact ⟨⟨rendered, rfl, h.symm⟩, by decide, by decide⟩

/-- Witness for C4 at the one-record document `[Version 0]`. -/
theorem c4_crlf_hardcoded_eval_witness :
    SDP.to_string (SDP.mk [SdpProp.Version 0]) = Except.ok (strL "v=0\r\n") ∧
    (∃ rendered, (SDP.mk [SdpProp.Version 0]).props.mapM SdpProp.to_string =
        Except.ok rendered ∧
      strL "v=0\r\n" = joinSep (strL "\r\n") rendered ++ strL "\r\n") :=
  ⟨by decide,
    (c4_crlf_hardcoded_eval (SDP.mk [SdpProp.Version 0]) (strL "v=0\r\n")
      (by decide)).1⟩

/-- C5 counterexample: a document with an empty line breaks the merging —
`media_indices` is recorded before empty-line filtering while the grouping
fold indexes the filtered lines, so in `\nm=video 0 RTP 0\na=y` the stale
media index 1 makes the fold start a new record at `a=y`: the parse
succeeds with a `Media` record whose nested list is empty and a separate
top-level `Attribute`, instead of merging `a=y` into the media record. -/
theorem c5_counterexample :
    SDP.from_str (strL "\nm=video 0 RTP 0\na=y") =
      Except.ok (SDP.mk [
        SdpProp.Media MediaType.Video [0] (strL "RTP") (strL "0") [],
        SdpProp.Attribute (strL "y") none]) ∧
    ¬ SDP.from_str (strL "\nm=video 0 RTP 0\na=y") =
      Except.ok (SDP.mk [
        SdpProp.Media MediaType.Video [0] (strL "RTP") (strL "0")
          [MediaProp.Attribute (strL "y") none]]) := by decide

/-- C5 (amended): provided no line of the document is empty, section
grouping merges every line after an `m=` line, up to but excluding the next
`m=` line or end of input, into that media record (stated in general for
any media-free prefix followed by media sections of nonempty lines); with
an empty line present the media indices, recorded before empty-line
filtering, can misalign with the fold, which indexes after filtering. In
particular the three-line example parses to exactly two `Media` records,
the audio one with an empty nested list and the video one with exactly the
`rtpmap` attribute `99 h263-1998/90000`. -/
theorem c5_media_section_grouping (pre : List Str)
    (secs : List (Str × List Str))
    (hnonempty : ∀ x ∈ pre ++ flat_sections secs, ¬ x = [])
    (hpre : ∀ x ∈ pre, startsWithM x = false)
    (hsec : ∀ sec ∈ secs, startsWithM sec.1 = true ∧
      ∀ x ∈ sec.2, startsWithM x = false) :
    group_media_lines (pre ++ flat_sections secs) =
      pre ++ secs.map (fun sec => joinSep (strL "\n") (sec.1 :: sec.2)) ∧
    SDP.from_str
        (strL "m=audio 49170 RTP/AVP 0\nm=video 51372 RTP/AVP 99\na=rtpmap:99 h263-1998/90000") =
      Except.ok (SDP.mk [
        SdpProp.Media MediaType.Audio [49170] (strL "RTP/AVP") (strL "0") [],
        SdpProp.Media MediaType.Video [51372] (strL "RTP/AVP") (strL "99")
          [MediaProp.Attribute (strL "rtpmap") (some (strL "99 h263-1998/90000"))]]) :=
  ⟨group_media_lines_sections pre secs hnonempty hpre hsec, by decide⟩

/-- Witness for C5 at the concrete two-section media block of the claim. -/
theorem c5_media_section_grouping_witness :
    group_media_lines (([] : List Str) ++ flat_sections
        [(strL "m=audio 49170 RTP/AVP 0", ([] : List Str)),
          (strL "m=video 51372 RTP/AVP 99", [strL "a=rtpmap:99 h263-1998/90000"])]) =
      ([] : List Str) ++
        [(strL "m=audio 49170 RTP/AVP 0", ([] : List Str)),
          (strL "m=video 51372 RTP/AVP 99", [strL "a=rtpmap:99 h263-1998/90000"])].map
          (fun sec => joinSep (strL "\n") (sec.1 :: sec.2)) ∧
    SDP.from_str
        (strL "m=audio 49170 RTP/AVP 0\nm=video 51372 RTP/AVP 99\na=rtpmap:99 h263-1998/90000") =
      Except.ok (SDP.mk [
        SdpProp.Media MediaType.Audio [49170] (strL "RTP/AVP") (strL "0") [],
        SdpProp.Media MediaType.Video [51372] (strL "RTP/AVP") (strL "99")
          [MediaProp.Attribute (strL "rtpmap") (some (strL "99 h263-1998/90000"))]]) :=
  c5_media_section_grouping []
    [(strL "m=audio 49170 RTP/AVP 0", ([] : List Str)),
      (strL "m=video 51372 RTP/AVP 99", [strL "a=rtpmap:99 h263-1998/90000"])]
    (by decide) (by decide) (by decide)

/-- C7: re-parse is not idempotent — `r=1 2` parses to a `RepeatTimes`
record with an empty offsets list, serializes with a trailing space as
`r=1 2 `, and re-parsing that text yields an offsets list containing one
empty string, a different document. -/
theorem c7_reparse_not_idempotent_eval :
    SDP.from_str (strL "r=1 2") =
      Except.ok (SDP.mk [SdpProp.RepeatTimes (strL "1") (strL "2") []]) ∧
    SDP.to_string (SDP.mk [SdpProp.RepeatTimes (strL "1") (strL "2") []]) =
      Except.ok (strL "r=1 2 \r\n") ∧
    SDP.from_str (strL "r=1 2 \r\n") =
      Except.ok (SDP.mk [SdpProp.RepeatTimes (strL "1") (strL "2") [[]]]) ∧
    ¬ SDP.mk [SdpProp.RepeatTimes (strL "1") (strL "2") [[]]] =
      SDP.mk [SdpProp.RepeatTimes (strL "1") (strL "2") []] := by decide

/-- A top-level record whose serialization cannot hit the forced
`ttl.unwrap()`: every record except an IPv4 connection with an absent
TTL. -/
def connTtlOk : SdpProp → Prop
  | SdpProp.Connection _ address_type _ ttl _ _ =>
    address_type = AddressType.IPv4 → ttl.isSome
  | _ => True

theorem sdp_prop_to_string_total (p : SdpProp) (hp : connTtlOk p) :
    ∃ s, SdpProp.to_string p = Except.ok s := by
  cases p with
  | Connection net_type address_type address ttl num_addresses suffix =>
    cases address_type with
    | IPv4 =>
      cases ttl with
      | some t => cases num_addresses <;> exact ⟨_, rfl⟩
      | none => exact absurd (hp rfl) (by decide)
    | IPv6 =>
      cases ttl with
      | some t => cases num_addresses <;> exact ⟨_, rfl⟩
      | none => cases num_addresses <;> exact ⟨_, rfl⟩
  | Attribute key value => cases value <;> exact ⟨_, rfl⟩
  | Version v => exact ⟨_, rfl⟩
  | Origin a b c d e f => exact ⟨_, rfl⟩
  | SessionName a => exact ⟨_, rfl⟩
  | SessionInformation a => exact ⟨_, rfl⟩
  | Uri a => exact ⟨_, rfl⟩
  | Email a => exact ⟨_, rfl⟩
  | Phone a => exact ⟨_, rfl⟩
  | Bandwidth a b => exact ⟨_, rfl⟩
  | Timing a b => exact ⟨_, rfl⟩
  | RepeatTimes a b c => exact ⟨_, rfl⟩
  | TimeZone a => exact ⟨_, rfl⟩
  | EncryptionKeys a => exact ⟨_, rfl⟩
  | Media a b c d e => exact ⟨_, rfl⟩

theorem res_mapM_ok {α β : Type} (f : α → Res β) (l : List α)
    (h : ∀ a ∈ l, ∃ b, f a = Except.ok b) :
    ∃ bs, l.mapM f = Except.ok bs := by
  induction l with
  | nil => exact ⟨[], rfl⟩
  | cons x xs ih =>
    obtain ⟨b, hb⟩ := h x (List.mem_cons_self x xs)
    obtain ⟨bs, hbs⟩ := ih (fun a ha => h a (List.mem_cons_of_mem x ha))
    refine ⟨b :: bs, ?_⟩
    rw [List.mapM_cons, hb, hbs]
    rfl

theorem sdp_to_string_total (doc : SDP) (h : ∀ p ∈ doc.props, connTtlOk p) :
    ∃ s, SDP.to_string doc = Except.ok s := by
  obtain ⟨rendered, hr⟩ := res_mapM_ok SdpProp.to_string doc.props
    (fun p hp2 => sdp_prop_to_string_total p (h p hp2))
  refine ⟨joinSep (strL "\r\n") rendered ++ strL "\r\n", ?_⟩
  show (do
    let r ← doc.props.mapM SdpProp.to_string
    Except.ok (joinSep (strL "\r\n") r ++ strL "\r\n") : Res Str) =
      Except.ok (joinSep (strL "\r\n") rendered ++ strL "\r\n")
  rw [hr]
  rfl

example : SdpProp.to_string (SdpProp.Attribute (strL "recvonly") none) =
    Except.ok (strL "a=recvonly") := by decide
example : content_from_line (strL "a=x=y") = Except.ok ('a', strL "x=y") := by decide
example : strL "ab" = ['a', 'b'] := by decide
example : splitChar '=' (strL "a=b=c") = [strL "a", strL "b", strL "c"] := by decide
example : splitChar ' ' (strL "") = [[]] := by decide
example : replaceCRLF (strL "a\r\nb") = strL "a\nb" := by decide
example : parseUnsigned U8MAX (strL "127") = Except.ok 127 := by decide
example : parseUnsigned U8MAX (strL "256") = Except.error IntErrorKind.PosOverflow := by decide
example : parseUnsigned UMAX (strL "+5") = Except.ok 5 := by decide
example : parseUnsigned UMAX (strL "") = Except.error IntErrorKind.Empty := by decide
example : natChars 127 = strL "127" := by decide
example : chunksTwo [1, 2, 3] = [[1, 2], [3]] := by decide
